import Mathlib

/-!
StackSwap offramp backend — verification of the settlement engine.

A shallow embedding of the StackSwap backend (Node/Express + mongoose), covering
the parts of the code the specification's claims are about:

* `models/Transaction.js` — the transaction record and its mongoose schema
  (in particular the `status` enum, which the schema restricts to
  `["pending", "processing", "confirmed", "failed"]`);
* `controllers/offrampController.js` — `verifyLencoSignature`, `checkLiquidity`,
  `getLiquidityInfo`, `calculateOfframpQuote`, `confirmTokenReceipt`,
  `handleLencoWebhook`;
* `services/stacksIndexer.js` — the processed-transaction bookkeeping around
  `callConfirmReceipt`;
* `services/priceService.js` — the cache / backoff / emergency-fallback logic of
  `refreshPrices` and `getCurrentPrices`.

JavaScript numbers are modelled as exact rationals `ℚ` (integers as `ℤ`/`ℕ`),
strings as Lean `String`, fallible calls as `Except`/`Option`, and the document
store as a list of records with an explicit validating save. Interleaved
executions of `confirmTokenReceipt` are modelled by a small-step machine whose
atomic steps are the `await` points of the source (the `findOne`, each
`tx.save()`, and the provider call).
-/

/-- The five status strings used by `offrampController.js`
(`"pending"`, `"processing"`, `"settling"`, `"confirmed"`, `"failed"`). -/
inductive Status where
  | pending
  | processing
  | settling
  | confirmed
  | failed
deriving DecidableEq, Repr

/-- The `enum` of the `status` path of the mongoose schema in
`models/Transaction.js`: `["pending", "processing", "confirmed", "failed"]`.
Note that `"settling"` is **not** in the schema's enum. -/
def schemaStatusEnum : List Status :=
  [Status.pending, Status.processing, Status.confirmed, Status.failed]

/-- Whether a status value passes the schema's enum validator. -/
def validStatus (s : Status) : Bool :=
  schemaStatusEnum.contains s

/-- The fields of a Transaction document that the modelled code reads or
writes. `lencoTransferId`, `failureReason`, `requiresManualSettlement` live in
the open `meta` map in the source; audit-only meta entries (timestamps,
balance snapshots) are not modelled. -/
structure Tx where
  paymentReference : String
  status : Status
  txId : Option String
  ngnAmount : Int
  lencoTransferId : Option String
  confirmedAt : Option Nat
  failureReason : Option String
  requiresManualSettlement : Bool
deriving DecidableEq, Repr

/-- The document store, restricted to offramp transactions. -/
abbrev DB := List Tx

/-- Models `Transaction.findOne({ paymentReference: ref, direction: "offramp" })`. -/
def findOne (db : DB) (ref : String) : Option Tx :=
  db.find? (fun t => t.paymentReference == ref)

/-- Replace the record with the same `paymentReference` (the document identity
in this model) by `t`. -/
def dbPut (db : DB) (t : Tx) : DB :=
  db.map (fun u => if u.paymentReference == t.paymentReference then t else u)

/-- Models `tx.save()`: mongoose runs the schema validators before writing, so a
document whose `status` is not in the schema's enum is rejected with a
`ValidationError` (the promise rejects); otherwise the document is written. -/
def txSave (db : DB) (t : Tx) : Except Unit DB :=
  if validStatus t.status then Except.ok (dbPut db t) else Except.error ()

/-- The HTTP responses `confirmTokenReceipt` can produce. -/
inductive ConfirmResp where
  /-- 400: missing fields, or `Cannot confirm — status is ...`. -/
  | badRequest
  /-- 404: `Transaction not found`. -/
  | notFound
  /-- 200: `Already processed`. -/
  | alreadyProcessed
  /-- 200: `Tokens received. NGN settlement initiated.` with the Lenco transfer id. -/
  | settled (lencoTransferId : String)
  /-- 500: `NGN settlement failed. Support notified.` -/
  | settlementFailed
  /-- 500: outer `catch` of the controller. -/
  | internalError
deriving DecidableEq, Repr

/-- Result of a `confirmTokenReceipt` run: the HTTP response, the post-state of
the store, and how many times `initiateLencoTransfer` was invoked. -/
structure ConfirmResult where
  resp : ConfirmResp
  db : DB
  lencoCalls : Nat
deriving DecidableEq, Repr

/-- The local state of one in-flight `confirmTokenReceipt` execution, between
its `await` points. `toCheck snap` holds the snapshot returned by `findOne`;
the status check and the `processing` save happen synchronously after it.
`toPayout tx1` holds the in-memory document after the `processing` save. -/
inductive CallPhase where
  | toRead
  | toCheck (snap : Option Tx)
  | toPayout (tx1 : Tx)
  | doneR (r : ConfirmResp)
deriving DecidableEq, Repr

/-- One atomic step of `confirmTokenReceipt` (lines 821–864 of
`offrampController.js`) against the shared store, parameterised by the request
fields and the outcome of the Lenco transfer call (`Except.ok transferId` when
the provider accepts, `Except.error ()` when `initiateLencoTransfer` throws).

* `toRead` → `toCheck`: the `findOne` await.
* `toCheck` → done / `toPayout`: the status checks on the snapshot (already
  processed / unexpected status / proceed) and the `status = "processing"`,
  `txId = stacksTxId` save. The source's token-amount tolerance comparison only
  logs a warning and does not branch, so it has no effect here.
* `toPayout` → done: the provider call, then `status = "settling"` plus
  `meta.lencoTransferId` save; if that save rejects (it always does: the schema
  enum has no `"settling"`), the same `catch` as a Lenco failure runs, saving
  `status = "failed"` with `requiresManualSettlement` and answering 500. -/
def phaseStep (ref stacksTxId : String) (lenco : Except Unit String)
    (db : DB) (calls : Nat) (p : CallPhase) : DB × Nat × CallPhase :=
  match p with
  | CallPhase.toRead => (db, calls, CallPhase.toCheck (findOne db ref))
  | CallPhase.toCheck none => (db, calls, CallPhase.doneR ConfirmResp.notFound)
  | CallPhase.toCheck (some tx) =>
    if tx.status == Status.confirmed || tx.status == Status.processing then
      (db, calls, CallPhase.doneR ConfirmResp.alreadyProcessed)
    else if tx.status != Status.pending then
      (db, calls, CallPhase.doneR ConfirmResp.badRequest)
    else
      let tx1 := { tx with status := Status.processing, txId := some stacksTxId }
      match txSave db tx1 with
      | Except.ok db1 => (db1, calls, CallPhase.toPayout tx1)
      | Except.error _ => (db, calls, CallPhase.doneR ConfirmResp.internalError)
  | CallPhase.toPayout tx1 =>
    (match lenco with
     | Except.ok transferId =>
       let tx2 := { tx1 with status := Status.settling,
                             lencoTransferId := some transferId }
       match txSave db tx2 with
       | Except.ok db2 => (db2, calls + 1, CallPhase.doneR (ConfirmResp.settled transferId))
       | Except.error _ =>
         let tx3 := { tx2 with status := Status.failed,
                               failureReason := some "Lenco failed: ValidationError",
                               requiresManualSettlement := true }
         match txSave db tx3 with
         | Except.ok db2 => (db2, calls + 1, CallPhase.doneR ConfirmResp.settlementFailed)
         | Except.error _ => (db, calls + 1, CallPhase.doneR ConfirmResp.internalError)
     | Except.error _ =>
       let tx3 := { tx1 with status := Status.failed,
                             failureReason := some "Lenco failed",
                             requiresManualSettlement := true }
       match txSave db tx3 with
       | Except.ok db2 => (db2, calls + 1, CallPhase.doneR ConfirmResp.settlementFailed)
       | Except.error _ => (db, calls + 1, CallPhase.doneR ConfirmResp.internalError))
  | CallPhase.doneR r => (db, calls, CallPhase.doneR r)

/-- A full, uninterleaved run of `confirmTokenReceipt`: the initial
required-fields check, then the three awaited phases executed back to back.
A run reaches `doneR` in at most three steps; the fallback arm is unreachable. -/
def confirmTokenReceipt (db : DB) (ref stacksTxId : String)
    (lenco : Except Unit String) : ConfirmResult :=
  if ref == "" || stacksTxId == "" then
    { resp := ConfirmResp.badRequest, db := db, lencoCalls := 0 }
  else
    let s1 := phaseStep ref stacksTxId lenco db 0 CallPhase.toRead
    let s2 := phaseStep ref stacksTxId lenco s1.1 s1.2.1 s1.2.2
    let s3 := phaseStep ref stacksTxId lenco s2.1 s2.2.1 s2.2.2
    match s3.2.2 with
    | CallPhase.doneR r => { resp := r, db := s3.1, lencoCalls := s3.2.1 }
    | _ => { resp := ConfirmResp.internalError, db := s3.1, lencoCalls := s3.2.1 }

/-- A pending offramp record as created by `initializeOfframp` (the fields this
development uses). -/
def mkPending (ref : String) (ngn : Int) : Tx :=
  { paymentReference := ref
    status := Status.pending
    txId := none
    ngnAmount := ngn
    lencoTransferId := none
    confirmedAt := none
    failureReason := none
    requiresManualSettlement := false }

example :
    (confirmTokenReceipt [mkPending "R" 184635] "R" "T1" (Except.ok "L1")).resp =
      ConfirmResp.settlementFailed := by decide

example :
    (confirmTokenReceipt [{ mkPending "R" 10 with status := Status.processing }]
      "R" "T1" (Except.ok "L1")).resp = ConfirmResp.alreadyProcessed := by decide

/-! ## Two concurrent `confirmTokenReceipt` executions

The indexer, the per-transaction watcher and replays can issue
`confirmTokenReceipt` concurrently for the same reference. Each execution
suspends at its `await` points, so its atomic units are exactly the `phaseStep`
transitions above. A system holds the shared store, the shared count of
provider calls, and the local phase of each of the two executions; a schedule
says which execution takes the next step. -/

instance {ε α : Type} [DecidableEq ε] [DecidableEq α] : DecidableEq (Except ε α) := fun a b =>
  match a, b with
  | Except.ok x, Except.ok y =>
    if h : x = y then isTrue (by rw [h]) else isFalse (by intro hc; cases hc; exact h rfl)
  | Except.error x, Except.error y =>
    if h : x = y then isTrue (by rw [h]) else isFalse (by intro hc; cases hc; exact h rfl)
  | Except.ok _, Except.error _ => isFalse (by intro hc; cases hc)
  | Except.error _, Except.ok _ => isFalse (by intro hc; cases hc)

/-- The request fields of one `confirmTokenReceipt` caller: reference, chain tx
id, and the outcome its provider call would have. -/
structure CallInput where
  ref : String
  stacksTxId : String
  lenco : Except Unit String
deriving DecidableEq, Repr

/-- Two interleaved `confirmTokenReceipt` executions over a shared store. -/
structure Sys where
  db : DB
  lencoCalls : Nat
  callA : CallPhase
  callB : CallPhase
deriving DecidableEq, Repr

/-- Let execution A (`who = true`) or B (`who = false`) take one atomic step. -/
def sysStep (ia ib : CallInput) (s : Sys) (who : Bool) : Sys :=
  if who then
    let r := phaseStep ia.ref ia.stacksTxId ia.lenco s.db s.lencoCalls s.callA
    { s with db := r.1, lencoCalls := r.2.1, callA := r.2.2 }
  else
    let r := phaseStep ib.ref ib.stacksTxId ib.lenco s.db s.lencoCalls s.callB
    { s with db := r.1, lencoCalls := r.2.1, callB := r.2.2 }

/-- Run a schedule (list of `who` choices) from an initial system. -/
def runSched (ia ib : CallInput) (sched : List Bool) (s : Sys) : Sys :=
  sched.foldl (sysStep ia ib) s

/-- Initial system: both executions are about to run their `findOne`. -/
def initSys (db : DB) : Sys :=
  { db := db, lencoCalls := 0, callA := CallPhase.toRead, callB := CallPhase.toRead }

/-- The schedule in which call A runs to completion before call B starts. -/
def serializedSched : List Bool := [true, true, true, false, false, false]

/-- The interleaving in which both calls perform their `findOne` before either
saves: A reads, B reads, then each proceeds on its stale `pending` snapshot. -/
def racySched : List Bool := [true, false, true, true, false, false]

example :
    (runSched ⟨"R", "T1", Except.ok "L1"⟩ ⟨"R", "T2", Except.ok "L2"⟩ racySched
      (initSys [mkPending "R" 184635])).lencoCalls = 2 := by decide

example :
    (runSched ⟨"R", "T1", Except.ok "L1"⟩ ⟨"R", "T2", Except.ok "L2"⟩ serializedSched
      (initSys [mkPending "R" 184635])).lencoCalls = 1 := by decide

/-! ## JSON values, `JSON.stringify`, `JSON.parse`

The webhook route receives a JSON body; Express's `json()` middleware parses
the raw bytes into `req.body`, and `verifyLencoSignature` re-serialises that
parsed value with `JSON.stringify` before MACing it. The fragment of JSON
needed here: objects with string keys, string values without escape sequences,
and integer numbers (the payloads the modelled code touches are of this
shape). `jsonStringify` matches `JSON.stringify` on this fragment: insertion
order of keys, no whitespace. -/

inductive JVal where
  | jnum (n : Int)
  | jstr (s : String)
  | jobj (fields : List (String × JVal))
deriving Repr

mutual

/-- Models `JSON.stringify` on this fragment. -/
def jsonStringify : JVal → String
  | JVal.jnum n => toString n
  | JVal.jstr s => "\"" ++ s ++ "\""
  | JVal.jobj fs => "\x7b" ++ stringifyFields fs ++ "\x7d"

def stringifyFields : List (String × JVal) → String
  | [] => ""
  | [kv] => "\"" ++ kv.1 ++ "\":" ++ jsonStringify kv.2
  | kv :: rest => "\"" ++ kv.1 ++ "\":" ++ jsonStringify kv.2 ++ "," ++ stringifyFields rest

end

/-- Drop leading JSON whitespace. -/
def skipWs : List Char → List Char
  | [] => []
  | c :: cs =>
    if c = ' ' || c = '\t' || c = '\n' || c = '\r' then skipWs cs else c :: cs

/-- Read the body of a double-quoted string (no escape sequences in this
fragment), returning the characters and the remainder after the closing quote. -/
def parseStrChars : List Char → Option (List Char × List Char)
  | [] => none
  | c :: cs =>
    if c = '"' then some ([], cs)
    else
      match parseStrChars cs with
      | some (s, rest) => some (c :: s, rest)
      | none => none

/-- Split off a maximal run of decimal digits. -/
def takeDigits : List Char → List Char × List Char
  | [] => ([], [])
  | c :: cs =>
    if c.isDigit then
      let dr := takeDigits cs
      (c :: dr.1, dr.2)
    else ([], c :: cs)

/-- Value of a digit run. -/
def digitsVal (ds : List Char) : Nat :=
  ds.foldl (fun a c => a * 10 + (c.toNat - 48)) 0

mutual

/-- Recursive-descent `JSON.parse` for the modelled fragment, fuelled. -/
def parseVal : Nat → List Char → Option (JVal × List Char)
  | 0, _ => none
  | fuel + 1, cs =>
    match skipWs cs with
    | [] => none
    | c :: rest =>
      if c = '"' then
        match parseStrChars rest with
        | some (s, r) => some (JVal.jstr (String.mk s), r)
        | none => none
      else if c = '\x7b' then
        match parseFields fuel rest with
        | some (fs, r) => some (JVal.jobj fs, r)
        | none => none
      else if c.isDigit then
        let dr := takeDigits (c :: rest)
        some (JVal.jnum (Int.ofNat (digitsVal dr.1)), dr.2)
      else if c = '-' then
        match takeDigits rest with
        | ([], _) => none
        | (ds, r) => some (JVal.jnum (-(Int.ofNat (digitsVal ds))), r)
      else none

/-- Parse the fields of an object after its opening brace, consuming the
closing brace. -/
def parseFields : Nat → List Char → Option (List (String × JVal) × List Char)
  | 0, _ => none
  | fuel + 1, cs =>
    match skipWs cs with
    | [] => none
    | c :: rest =>
      if c = '\x7d' then some ([], rest)
      else if c = '"' then
        match parseStrChars rest with
        | none => none
        | some (key, afterKey) =>
          match skipWs afterKey with
          | ':' :: afterColon =>
            match parseVal fuel afterColon with
            | none => none
            | some (v, afterVal) =>
              match skipWs afterVal with
              | ',' :: afterComma =>
                match parseFields fuel afterComma with
                | some (fs, r) => some ((String.mk key, v) :: fs, r)
                | none => none
              | d :: afterBrace =>
                if d = '\x7d' then
                  some ([(String.mk key, v)], afterBrace)
                else none
              | [] => none
          | _ => none
      else none

end

/-- Models `JSON.parse` on a whole input string. -/
def jsonParse (s : String) : Option JVal :=
  match parseVal (s.length + 1) s.data with
  | some (v, rest) => if (skipWs rest).isEmpty then some v else none
  | none => none

/-- Field access `obj?.key`. -/
def jGet (v : JVal) (key : String) : Option JVal :=
  match v with
  | JVal.jobj fs => (fs.find? (fun kv => kv.1 == key)).map (fun kv => kv.2)
  | _ => none

/-- Extract a JSON string value. -/
def jStrVal : Option JVal → Option String
  | some (JVal.jstr s) => some s
  | _ => none

example :
    jsonParse "\x7b\"a\": 1\x7d" = some (JVal.jobj [("a", JVal.jnum 1)]) := by rfl

example :
    jsonStringify (JVal.jobj [("a", JVal.jnum 1)]) = "\x7b\"a\":1\x7d" := by rfl

/-! ## HMAC-SHA256 (Node `crypto.createHmac("sha256", secret)…digest("hex")`)

A byte-level FIPS 180-4 SHA-256 over `List ℕ` (bytes), with 32-bit words as
naturals reduced mod `2^32`, and RFC 2104 HMAC on top. `verifyLencoSignature`
feeds it the UTF-8 bytes of the secret and of the serialised payload. -/

/-- Addition of 32-bit words. -/
def add32 (a b : Nat) : Nat := (a + b) % 2 ^ 32

/-- Right-rotation of a 32-bit word. -/
def rotr32 (n x : Nat) : Nat := (x / 2 ^ n + x % 2 ^ n * 2 ^ (32 - n)) % 2 ^ 32

/-- Logical right shift. -/
def shr32 (n x : Nat) : Nat := x / 2 ^ n

/-- SHA-256 round constants (FIPS 180-4, here in decimal). -/
def shaK : List Nat :=
  [1116352408, 1899447441, 3049323471, 3921009573, 961987163,
   1508970993, 2453635748, 2870763221, 3624381080, 310598401,
   607225278, 1426881987, 1925078388, 2162078206, 2614888103,
   3248222580, 3835390401, 4022224774, 264347078, 604807628,
   770255983, 1249150122, 1555081692, 1996064986, 2554220882,
   2821834349, 2952996808, 3210313671, 3336571891, 3584528711,
   113926993, 338241895, 666307205, 773529912, 1294757372,
   1396182291, 1695183700, 1986661051, 2177026350, 2456956037,
   2730485921, 2820302411, 3259730800, 3345764771, 3516065817,
   3600352804, 4094571909, 275423344, 430227734, 506948616,
   659060556, 883997877, 958139571, 1322822218, 1537002063,
   1747873779, 1955562222, 2024104815, 2227730452, 2361852424,
   2428436474, 2756734187, 3204031479, 3329325298]

/-- SHA-256 initial hash state (decimal). -/
def shaH0 : List Nat :=
  [1779033703, 3144134277, 1013904242, 2773480762,
   1359893119, 2600822924, 528734635, 1541459225]

/-- Big-endian byte expansion of `n` into `k` bytes. -/
def bytesBE (k n : Nat) : List Nat :=
  match k with
  | 0 => []
  | j + 1 => n / 2 ^ (8 * j) % 256 :: bytesBE j n

/-- SHA-256 message padding: `0x80`, zeros to 56 mod 64, 8-byte bit length. -/
def shaPad (msg : List Nat) : List Nat :=
  msg ++ [0x80] ++ List.replicate ((119 - msg.length % 64) % 64) 0 ++
    bytesBE 8 (8 * msg.length)

/-- Chunk a byte list into 64-byte blocks. -/
def toBlocks : List Nat → List (List Nat)
  | [] => []
  | b :: bs => ((b :: bs).take 64) :: toBlocks ((b :: bs).drop 64)
termination_by l => l.length
decreasing_by simp; omega

/-- Combine bytes into big-endian 32-bit words. -/
def toWords : List Nat → List Nat
  | b0 :: b1 :: b2 :: b3 :: rest =>
    (((b0 * 256 + b1) * 256 + b2) * 256 + b3) :: toWords rest
  | _ => []

/-- One extension word of the SHA-256 message schedule, from the last 16
entries of the schedule so far. -/
def nextScheduleWord (w : List Nat) : Nat :=
  let g := fun (i : Nat) => w.getD (w.length - i) 0
  let s0 := (rotr32 7 (g 15)).xor ((rotr32 18 (g 15)).xor (shr32 3 (g 15)))
  let s1 := (rotr32 17 (g 2)).xor ((rotr32 19 (g 2)).xor (shr32 10 (g 2)))
  add32 (add32 (g 16) s0) (add32 (g 7) s1)

/-- Extend the 16 block words to the 64-entry message schedule. -/
def extendSchedule : Nat → List Nat → List Nat
  | 0, w => w
  | n + 1, w => extendSchedule n (w ++ [nextScheduleWord w])

/-- One round of the SHA-256 compression function. -/
def shaRound (w : List Nat) (st : List Nat) (i : Nat) : List Nat :=
  let a := st.getD 0 0
  let b := st.getD 1 0
  let c := st.getD 2 0
  let d := st.getD 3 0
  let e := st.getD 4 0
  let f := st.getD 5 0
  let g := st.getD 6 0
  let h := st.getD 7 0
  let s1 := (rotr32 6 e).xor ((rotr32 11 e).xor (rotr32 25 e))
  let ch := (e.land f).xor ((e.xor (2 ^ 32 - 1)).land g)
  let t1 := add32 (add32 (add32 h s1) (add32 ch (shaK.getD i 0))) (w.getD i 0)
  let s0 := (rotr32 2 a).xor ((rotr32 13 a).xor (rotr32 22 a))
  let maj := ((a.land b).xor (a.land c)).xor (b.land c)
  let t2 := add32 s0 maj
  [add32 t1 t2, a, b, c, add32 d t1, e, f, g]

/-- Compress one 64-byte block into the running hash state. -/
def shaCompress (h : List Nat) (block : List Nat) : List Nat :=
  let w := extendSchedule 48 (toWords block)
  let st := (List.range 64).foldl (shaRound w) h
  List.zipWith add32 h st

/-- SHA-256 of a byte list, as 32 bytes. -/
def sha256 (msg : List Nat) : List Nat :=
  (((toBlocks (shaPad msg)).foldl shaCompress shaH0).map (bytesBE 4)).flatten

/-- Lower-case hex digit. -/
def hexDigit (n : Nat) : Char :=
  if n < 10 then Char.ofNat (48 + n) else Char.ofNat (87 + n)

/-- Lower-case hex string of a byte list (Node's `digest("hex")`). -/
def bytesToHex (bs : List Nat) : String :=
  String.mk ((bs.map (fun b => [hexDigit (b / 16 % 16), hexDigit (b % 16)])).flatten)

/-- UTF-8 bytes of a string. -/
def strBytes (s : String) : List Nat :=
  s.toUTF8.toList.map (fun b => b.toNat)

/-- RFC 2104 HMAC-SHA256 over byte lists. -/
def hmacSHA256 (key msg : List Nat) : List Nat :=
  let k0 := if 64 < key.length then sha256 key else key
  let k := k0 ++ List.replicate (64 - k0.length) 0
  sha256 ((k.map (fun b => b.xor 0x5c)) ++ sha256 ((k.map (fun b => b.xor 0x36)) ++ msg))

/-- Models `crypto.createHmac("sha256", key).update(msg).digest("hex")`. -/
def hmacSHA256hex (key msg : String) : String :=
  bytesToHex (hmacSHA256 (strBytes key) (strBytes msg))

/-! ## `verifyLencoSignature` and `handleLencoWebhook` -/

/-- Models `verifyLencoSignature(payload, signature)` (offrampController.js 45–59).
When `LENCO_WEBHOOK_SECRET` is empty it logs a warning and returns `true`;
otherwise it HMACs `JSON.stringify(payload)` — the re-serialisation of the
already-parsed request body, not the raw request bytes — and compares the hex
digest to the header value with `===`. -/
def verifyLencoSignature (secret : String) (payload : JVal) (signature : String) : Bool :=
  if secret == "" then true
  else hmacSHA256hex secret (jsonStringify payload) == signature

/-- The responses of `handleLencoWebhook`. -/
inductive WebhookResp where
  /-- 401 `Missing signature`. -/
  | missingSignature
  /-- 401 `Invalid signature`. -/
  | invalidSignature
  /-- 200 `Webhook received` (`transfer.completed` with no matching record). -/
  | received
  /-- 200 `Already confirmed`. -/
  | alreadyConfirmed
  /-- 200 `Transaction confirmed`. -/
  | txConfirmed
  /-- 200 `Failure recorded`. -/
  | failureRecorded
  /-- 200 `Event … acknowledged` (unhandled event). -/
  | acknowledged
  /-- An uncaught exception (`handleLencoWebhook` has no try/catch). -/
  | serverError
deriving DecidableEq, Repr

/-- The event-dispatch body of `handleLencoWebhook` (offrampController.js
886–914), after the signature has been accepted. `now` is the wall clock used
for `confirmedAt`. On `transfer.completed` the only status consulted is
`=== "confirmed"` (for the idempotent reply); any other prior status is
overwritten. On `transfer.failed` / `transfer.reversed` the record is marked
`failed` whatever its prior status. -/
def webhookDispatch (payload : JVal) (db : DB) (now : Nat) : WebhookResp × DB :=
  let event := jStrVal (jGet payload "event")
  if event == some "transfer.completed" then
    match jGet payload "data" with
    | none => (WebhookResp.serverError, db)
    | some d =>
      match findOne db ((jStrVal (jGet d "reference")).getD "") with
      | none => (WebhookResp.received, db)
      | some tx =>
        if tx.status == Status.confirmed then (WebhookResp.alreadyConfirmed, db)
        else
          match txSave db { tx with status := Status.confirmed, confirmedAt := some now } with
          | Except.ok db1 => (WebhookResp.txConfirmed, db1)
          | Except.error _ => (WebhookResp.serverError, db)
  else if event == some "transfer.failed" || event == some "transfer.reversed" then
    match jGet payload "data" with
    | none => (WebhookResp.serverError, db)
    | some d =>
      match findOne db ((jStrVal (jGet d "reference")).getD "") with
      | none => (WebhookResp.failureRecorded, db)
      | some tx =>
        let reason :=
          match jStrVal (jGet d "reason") with
          | some s => if s == "" then "Lenco event: " ++ event.getD "" else s
          | none => "Lenco event: " ++ event.getD ""
        match txSave db { tx with status := Status.failed, failureReason := some reason,
                                  requiresManualSettlement := true } with
        | Except.ok db1 => (WebhookResp.failureRecorded, db1)
        | Except.error _ => (WebhookResp.serverError, db)
  else (WebhookResp.acknowledged, db)

/-- Models `handleLencoWebhook` (offrampController.js 871–915): reject when the
`x-lenco-signature` header is absent or empty (JS falsiness), reject when
`verifyLencoSignature` fails, otherwise dispatch on the event. -/
def handleLencoWebhook (secret : String) (payload : JVal) (signature : Option String)
    (db : DB) (now : Nat) : WebhookResp × DB :=
  match signature with
  | none => (WebhookResp.missingSignature, db)
  | some sig =>
    if sig == "" then (WebhookResp.missingSignature, db)
    else if verifyLencoSignature secret payload sig then webhookDispatch payload db now
    else (WebhookResp.invalidSignature, db)

/-- A webhook payload `{event, data: {reference}}` as Lenco sends it. -/
def mkWebhookPayload (event ref : String) : JVal :=
  JVal.jobj [("event", JVal.jstr event), ("data", JVal.jobj [("reference", JVal.jstr ref)])]

example :
    (handleLencoWebhook "" (mkWebhookPayload "transfer.completed" "R") (some "x")
      [mkPending "R" 5] 7).2 =
      [{ mkPending "R" 5 with status := Status.confirmed, confirmedAt := some 7 }] := by
  decide

/-! ## The indexer's processed-set bookkeeping (`stacksIndexer.js`)

`checkInboundSTXTransfers` iterates the fetched chain transactions; for each
fresh inbound transfer with a matching memo it awaits `callConfirmReceipt` and
then adds the tx id to `processedTxIds`. `callConfirmReceipt` never throws: its
`catch` removes the tx id from the set when the backend answered 404 and
otherwise leaves the set alone. The chain transaction is modelled with its
memo already decoded (the hex/UTF-8 `decodeMemo` of the platform `Buffer` is
elided); `respStatus` gives the HTTP status of the internal confirm-receipt
POST for a given chain tx id, with 2xx meaning axios does not throw. -/

structure ChainTx where
  txId : String
  txStatus : String
  txType : String
  recipient : String
  memo : String
  sender : String
deriving DecidableEq, Repr

/-- Models `a.startsWith(b)` on decoded memo strings, character by character. -/
def startsWithStr (s p : String) : Bool :=
  p.toList.isPrefixOf s.toList

/-- Models `Set.add` on the `processedTxIds` set. -/
def setAdd (l : List String) (x : String) : List String :=
  if l.contains x then l else l ++ [x]

/-- Effect of `callConfirmReceipt(payload)` (stacksIndexer.js 160–199) on
`processedTxIds`: on HTTP 404 the `catch` runs `processedTxIds.delete(...)`;
every other outcome (2xx success, 401, other errors) leaves the set unchanged. -/
def callConfirmReceiptSet (processed : List String) (stacksTxId : String)
    (respStatus : Nat) : List String :=
  if respStatus == 404 then processed.erase stacksTxId else processed

/-- One iteration of the `for (const tx of txs)` loop of
`checkInboundSTXTransfers` (stacksIndexer.js 67–94): filter to successful
inbound `token_transfer`s, skip already-processed ids, require the
`SSWAP_OFFRAMP_` memo, await `callConfirmReceipt`, then
`processedTxIds.add(tx.tx_id)`. The state is the `processedTxIds` set paired
with the running count of confirm-receipt POSTs issued. -/
def stxLoopBody (platform : String) (respStatus : String → Nat)
    (st : List String × Nat) (tx : ChainTx) : List String × Nat :=
  if tx.txStatus != "success" || tx.txType != "token_transfer" ||
      tx.recipient != platform then st
  else if st.1.contains tx.txId then st
  else if !(startsWithStr tx.memo "SSWAP_OFFRAMP_") then st
  else (setAdd (callConfirmReceiptSet st.1 tx.txId (respStatus tx.txId)) tx.txId, st.2 + 1)

/-- One polling cycle of `checkInboundSTXTransfers` over the fetched page of
transactions: the post-cycle `processedTxIds` and the number of confirm-receipt
calls the cycle made. -/
def checkInboundSTXTransfers (platform : String) (respStatus : String → Nat)
    (txs : List ChainTx) (processed : List String) : List String × Nat :=
  txs.foldl (stxLoopBody platform respStatus) (processed, 0)

/-! ## Quote computation and the liquidity guard -/

/-- The fields of the quote object that the claims are about. -/
structure Quote where
  ngnAmount : Int
  grossNGN : ℚ
deriving DecidableEq, Repr

/-- Models `calculateOfframpQuote` (offrampController.js 174–207), with the market
rate already resolved from the price service and `OFFRAMP_FLAT_FEE_NGN` as the
`feeNGN` parameter: `grossNGN = tokenAmount · rate`,
`ngnAmount = Math.floor(grossNGN − fee)`, and a throw when `ngnAmount ≤ 0`
("Amount too small"). -/
def calculateOfframpQuote (feeNGN priceNGN tokenAmount : ℚ) : Except Unit Quote :=
  let grossNGN := tokenAmount * priceNGN
  let ngnAmount : Int := ⌊grossNGN - feeNGN⌋
  if ngnAmount ≤ 0 then Except.error ()
  else Except.ok { ngnAmount := ngnAmount, grossNGN := grossNGN }

/-- Result shape of `checkLiquidity`. -/
structure LiquidityCheck where
  ok : Bool
  availableNGN : Option ℚ
  requiredNGN : ℚ
  shortfallNGN : Option ℚ
deriving DecidableEq, Repr

/-- Models `checkLiquidity(requiredNGN)` (offrampController.js 125–172), with the
cached Lenco balance as a parameter (`none` = balance unknown) and
`LENCO_MIN_BALANCE_NGN` as `minBalanceNGN`: unknown balance rejects; otherwise
the order passes iff `balance ≥ requiredNGN + minBalanceNGN`. -/
def checkLiquidity (minBalanceNGN : ℚ) (balanceNGN : Option ℚ)
    (requiredNGN : ℚ) : LiquidityCheck :=
  match balanceNGN with
  | none =>
    { ok := false, availableNGN := none, requiredNGN := requiredNGN, shortfallNGN := none }
  | some b =>
    let totalNeeded := requiredNGN + minBalanceNGN
    if b < totalNeeded then
      { ok := false, availableNGN := some b, requiredNGN := requiredNGN,
        shortfallNGN := some (totalNeeded - b) }
    else
      { ok := true, availableNGN := some b, requiredNGN := requiredNGN,
        shortfallNGN := none }

/-- The `data` object returned by the public liquidity endpoint; the raw
balance is not among its fields. -/
structure LiquidityInfo where
  available : Bool
  maxOrderNGN : Int
  minBufferNGN : ℚ
deriving DecidableEq, Repr

/-- Models `getLiquidityInfo` (offrampController.js 399–431): force-refresh the
balance; 503 (`none`) when it is unknown; otherwise answer
`maxOrderNGN = max(0, Math.floor(balance − buffer))` and
`available = maxOrderNGN > 0`. -/
def getLiquidityInfo (minBalanceNGN : ℚ) (balanceNGN : Option ℚ) : Option LiquidityInfo :=
  match balanceNGN with
  | none => none
  | some b =>
    let maxOrderNGN : Int := max 0 ⌊b - minBalanceNGN⌋
    some { available := decide (0 < maxOrderNGN), maxOrderNGN := maxOrderNGN,
           minBufferNGN := minBalanceNGN }

/-! ## Price service (`services/priceService.js`)

Configuration uses the defaults of the source's `process.env` reads. The
upstream CoinGecko response is an input: `none` models a network error /
non-2xx (axios throws), `some raw` a 2xx body; `is429` tells whether a thrown
error carried HTTP status 429. Concurrent-caller deduplication (`inFlightFetch`)
is identity for a single caller and is not modelled. -/

def CACHE_TTL_MS : Nat := 60000
def STALE_TTL_MS : Nat := 300000
def BASE_BACKOFF_MS : Nat := 2000
def EMERGENCY_USD_NGN : ℚ := 1620
def EMERGENCY_STX_USD : ℚ := 57 / 50
def EMERGENCY_USDC_USD : ℚ := 1

/-- One cached token entry. -/
structure TokenPrice where
  priceUSD : ℚ
  priceNGN : ℚ
  usdToNgn : ℚ
  change24h : ℚ
deriving DecidableEq, Repr

/-- The module-level `cache` object. -/
structure PriceCache where
  stx : Option TokenPrice
  usdc : Option TokenPrice
  lastFetched : Option Nat
deriving DecidableEq, Repr

/-- The module-level mutable state of the price service. -/
structure PriceState where
  cache : PriceCache
  backoffUntil : Nat
  consecutiveFailures : Nat
deriving DecidableEq, Repr

/-- Models `cacheAgeMs()`: `none` plays the role of `Infinity`. -/
def cacheAgeMs (c : PriceCache) (now : Nat) : Option Nat :=
  c.lastFetched.map (fun t => now - t)

/-- Compares `age < bound`, where an absent age (`Infinity`) compares false. -/
def ageLt (a : Option Nat) (bound : Nat) : Bool :=
  match a with
  | none => false
  | some n => decide (n < bound)

/-- Models `hasFreshCache()`. -/
def hasFreshCache (c : PriceCache) (now : Nat) : Bool :=
  c.stx.isSome && c.usdc.isSome && ageLt (cacheAgeMs c now) CACHE_TTL_MS

/-- Models `hasUsableStaleCache()`. -/
def hasUsableStaleCache (c : PriceCache) (now : Nat) : Bool :=
  c.stx.isSome && c.usdc.isSome && ageLt (cacheAgeMs c now) STALE_TTL_MS

/-- The pair of per-token results a successful fetch produces. -/
structure FetchResults where
  stx : TokenPrice
  usdc : TokenPrice
deriving DecidableEq, Repr

/-- Models `buildEmergencyResults()`. -/
def buildEmergencyResults : FetchResults :=
  { stx := { priceUSD := EMERGENCY_STX_USD, priceNGN := EMERGENCY_STX_USD * EMERGENCY_USD_NGN,
             usdToNgn := EMERGENCY_USD_NGN, change24h := 0 }
    usdc := { priceUSD := EMERGENCY_USDC_USD, priceNGN := EMERGENCY_USDC_USD * EMERGENCY_USD_NGN,
              usdToNgn := EMERGENCY_USD_NGN, change24h := 0 } }

/-- The numeric fields of the CoinGecko `simple/price` response body the code
reads; `none` is an absent field. -/
structure RawGecko where
  tetherNgn : Option ℚ
  stxUsd : Option ℚ
  stxNgn : Option ℚ
  stxChange : Option ℚ
  usdcUsd : Option ℚ
  usdcNgn : Option ℚ
  usdcChange : Option ℚ
deriving DecidableEq, Repr

/-- JS `x || d` on an optional number: `undefined`, `null` and `0` all fall
through to the default. -/
def jsOr (x : Option ℚ) (d : ℚ) : ℚ :=
  match x with
  | some v => if v = 0 then d else v
  | none => d

/-- The per-token body of the `for` loop of `fetchFromCoinGecko`: skip the
token when its USD price is falsy; `priceNGN` prefers the upstream NGN price,
falling back to `priceUSD · usdToNgn`; `change24h` uses `?? 0` (nullish, so a
present `0` is kept). -/
def tokenResult (usd ngn change : Option ℚ) (usdToNgn : ℚ) : Option TokenPrice :=
  match usd with
  | none => none
  | some u =>
    if u = 0 then none
    else some { priceUSD := u, priceNGN := jsOr ngn (u * usdToNgn),
                usdToNgn := usdToNgn, change24h := change.getD 0 }

/-- Models `fetchFromCoinGecko()` (priceService.js 106–165) on a 2xx body: derive
`usdToNgn` from tether, then USDC, then the emergency constant; build both
token entries; throw when either is missing. -/
def fetchFromCoinGecko (raw : RawGecko) : Except Unit FetchResults :=
  let usdToNgn := jsOr raw.tetherNgn (jsOr raw.usdcNgn EMERGENCY_USD_NGN)
  match tokenResult raw.stxUsd raw.stxNgn raw.stxChange usdToNgn,
        tokenResult raw.usdcUsd raw.usdcNgn raw.usdcChange usdToNgn with
  | some s, some u => Except.ok { stx := s, usdc := u }
  | _, _ => Except.error ()

/-- The `catch` of `refreshPrices`: bump the failure count, arm the capped
exponential backoff on 429, then serve the stale cache if usable, else cache
and serve the emergency rates (with `lastFetched` set 30 s before staleness so
the outage is not re-probed on every request). -/
def refreshErrorPath (st : PriceState) (now : Nat) (is429 : Bool) :
    FetchResults × PriceState :=
  let failures := st.consecutiveFailures + 1
  let b := if is429 then now + min (BASE_BACKOFF_MS * 2 ^ (failures - 1)) 300000
           else st.backoffUntil
  let st1 := { st with consecutiveFailures := failures, backoffUntil := b }
  match st.cache.stx, st.cache.usdc, hasUsableStaleCache st.cache now with
  | some s, some u, true => ({ stx := s, usdc := u }, st1)
  | _, _, _ =>
    let em := buildEmergencyResults
    (em, { st1 with
           cache := { stx := some em.stx, usdc := some em.usdc,
                      lastFetched := some (now - CACHE_TTL_MS + 30000) } })

/-- Models `refreshPrices()` (priceService.js 169–231). Inside an armed backoff
window no upstream attempt is made: stale cache if usable, else emergency
rates. Otherwise attempt the fetch; success resets the backoff state and
installs the fresh cache; failure runs the `catch`. -/
def refreshPrices (st : PriceState) (now : Nat) (upstream : Option RawGecko)
    (is429 : Bool) : FetchResults × PriceState :=
  if now < st.backoffUntil then
    match st.cache.stx, st.cache.usdc, hasUsableStaleCache st.cache now with
    | some s, some u, true => ({ stx := s, usdc := u }, st)
    | _, _, _ => (buildEmergencyResults, st)
  else
    match upstream with
    | none => refreshErrorPath st now is429
    | some raw =>
      match fetchFromCoinGecko raw with
      | Except.ok results =>
        (results,
         { cache := { stx := some results.stx, usdc := some results.usdc,
                      lastFetched := some now },
           backoffUntil := 0, consecutiveFailures := 0 })
      | Except.error _ => refreshErrorPath st now false

/-- What `getCurrentPrices()` resolves with. -/
structure PriceSnapshot where
  stx : TokenPrice
  usdc : TokenPrice
  fromCache : Bool
deriving DecidableEq, Repr

/-- Models `getCurrentPrices()` (priceService.js 235–262): serve the fresh cache, or
refresh (sharing the in-flight promise is identity for one caller). -/
def getCurrentPrices (st : PriceState) (now : Nat) (upstream : Option RawGecko)
    (is429 : Bool) : PriceSnapshot × PriceState :=
  match st.cache.stx, st.cache.usdc, hasFreshCache st.cache now with
  | some s, some u, true => ({ stx := s, usdc := u, fromCache := true }, st)
  | _, _, _ =>
    let r := refreshPrices st now upstream is429
    ({ stx := r.1.stx, usdc := r.1.usdc, fromCache := false }, r.2)

/-- Well-formedness of one cache entry: strictly positive NGN price. -/
def posPrice (p : TokenPrice) : Bool :=
  decide (0 < p.priceNGN)

/-- The cache invariant: every present entry has a positive NGN price. -/
def cachePos (c : PriceCache) : Bool :=
  (match c.stx with
   | none => true
   | some p => posPrice p) &&
  (match c.usdc with
   | none => true
   | some p => posPrice p)

/-- Nonnegativity of an optional upstream number. -/
def optNonneg (x : Option ℚ) : Bool :=
  match x with
  | none => true
  | some v => decide (0 ≤ v)

/-- The upstream body carries no negative prices (prices are nonnegative;
absent and zero fields are exercised freely). -/
def rawNonneg (raw : RawGecko) : Bool :=
  optNonneg raw.tetherNgn && optNonneg raw.stxUsd && optNonneg raw.stxNgn &&
    optNonneg raw.usdcUsd && optNonneg raw.usdcNgn

/-! # Claims -/

/-! ## C1 — exactly-once payout under concurrent ConfirmReceipt -/

/-- Counterexample to C1. The claim asserts that when two `ConfirmReceipt`
calls race on a `pending` record, at most one performs the
`pending → processing` transition and initiates the provider payout while
every other call returns "already processed" and makes no provider call,
because the transition is a single atomic conditional update. The code instead
performs a `findOne` followed by a separate `save`, so in the interleaving
`racySched` — both calls read before either writes — **both** calls pass the
`pending` check, both perform the transition, and both invoke
`initiateLencoTransfer` (`lencoCalls = 2`); neither returns
"already processed". -/
theorem C1_counterexample :
    (runSched ⟨"R", "T1", Except.ok "L1"⟩ ⟨"R", "T2", Except.ok "L2"⟩ racySched
        (initSys [mkPending "R" 184635])).lencoCalls = 2 ∧
    (runSched ⟨"R", "T1", Except.ok "L1"⟩ ⟨"R", "T2", Except.ok "L2"⟩ racySched
        (initSys [mkPending "R" 184635])).callA ≠
      CallPhase.doneR ConfirmResp.alreadyProcessed ∧
    (runSched ⟨"R", "T1", Except.ok "L1"⟩ ⟨"R", "T2", Except.ok "L2"⟩ racySched
        (initSys [mkPending "R" 184635])).callB ≠
      CallPhase.doneR ConfirmResp.alreadyProcessed := by
  decide

/-- C1 as amended: the exactly-once guarantee holds only when the two
`ConfirmReceipt` executions are serialized (neither starts before the other has
finished): then at most one provider call is made, whatever the record's
initial status and whatever each call's provider outcome would be. Under
interleaved schedules the guarantee fails (`C1_counterexample`), because the
status check and the status update are separate store operations rather than
one atomic conditional update. -/
theorem C1_serialized_at_most_one_payout (s0 : Status) (la lb : Except Unit String) :
    (runSched ⟨"R", "T1", la⟩ ⟨"R", "T2", lb⟩ serializedSched
        (initSys [{ mkPending "R" 184635 with status := s0 }])).lencoCalls ≤ 1 := by
  cases la <;> cases lb <;> cases s0 <;>
    simp [runSched, serializedSched, sysStep, phaseStep, initSys, mkPending, findOne,
      txSave, validStatus, schemaStatusEnum, dbPut]

/-! ## C2 — successful payout should end in `settling` with the transfer id -/

/-- C2 exposes a defect: the controller does set `status = "settling"` and
`meta.lencoTransferId` after a successful `initiateLencoTransfer`, but the
mongoose schema's `status` enum (`models/Transaction.js` 61–66) omits
`"settling"`, so that `tx.save()` is rejected by validation; the rejection is
caught by the same `catch` as a provider failure, which persists
`status = "failed"` (the transfer id remains in `meta`) and answers
500 "NGN settlement failed" — even though the provider call succeeded. This
theorem evaluates the code at the failing input: a `pending` record whose
provider call succeeds with transfer id `"LT1"`. -/
theorem C2_schema_rejects_settling :
    (confirmTokenReceipt [mkPending "R" 184635] "R" "T1" (Except.ok "LT1")).resp =
      ConfirmResp.settlementFailed ∧
    findOne (confirmTokenReceipt [mkPending "R" 184635] "R" "T1" (Except.ok "LT1")).db "R" =
      some { paymentReference := "R", status := Status.failed, txId := some "T1",
             ngnAmount := 184635, lencoTransferId := some "LT1", confirmedAt := none,
             failureReason := some "Lenco failed: ValidationError",
             requiresManualSettlement := true } ∧
    validStatus Status.settling = false := by
  decide

/-! ## C4 — replies of a losing / replayed ConfirmReceipt -/

/-- Counterexample to C4. The claim asserts that a replayed `ConfirmReceipt`
answers 200 "already processed" whenever the record's status is any of
`processing`, `settling` or `confirmed`. For a `settling` record the code's
first check (`status === "confirmed" || status === "processing"`) does not
match, and the `status !== "pending"` guard answers 400 instead; no mutation
and no provider call happen. -/
theorem C4_counterexample :
    confirmTokenReceipt [{ mkPending "R" 5 with status := Status.settling }] "R" "T"
        (Except.ok "L") =
      { resp := ConfirmResp.badRequest,
        db := [{ mkPending "R" 5 with status := Status.settling }], lencoCalls := 0 } := by
  decide

/-- C4 as amended: a losing or replayed `ConfirmReceipt` answers
200 "already processed" exactly for prior status `processing` or `confirmed`,
404 when no record exists for the reference, and 400 for `settling` as well as
`failed`; in every one of these cases the store is unchanged and no provider
call is made. -/
theorem C4_amended (db : DB) (ref sid : String) (lenco : Except Unit String) (tx : Tx)
    (href : ref ≠ "") (hsid : sid ≠ "") :
    (findOne db ref = none →
      confirmTokenReceipt db ref sid lenco =
        { resp := ConfirmResp.notFound, db := db, lencoCalls := 0 }) ∧
    (findOne db ref = some tx → tx.status = Status.processing ∨ tx.status = Status.confirmed →
      confirmTokenReceipt db ref sid lenco =
        { resp := ConfirmResp.alreadyProcessed, db := db, lencoCalls := 0 }) ∧
    (findOne db ref = some tx → tx.status = Status.settling ∨ tx.status = Status.failed →
      confirmTokenReceipt db ref sid lenco =
        { resp := ConfirmResp.badRequest, db := db, lencoCalls := 0 }) := by
  refine ⟨?_, ?_, ?_⟩
  · intro h
    simp [confirmTokenReceipt, href, hsid, phaseStep, h]
  · intro h hs
    rcases hs with hs | hs <;>
      simp [confirmTokenReceipt, href, hsid, phaseStep, h, hs]
  · intro h hs
    rcases hs with hs | hs <;>
      simp [confirmTokenReceipt, href, hsid, phaseStep, h, hs]

/-- Witness for `C4_amended` at concrete inputs. -/
theorem C4_amended_witness :
    ("R" : String) ≠ "" ∧ ("T" : String) ≠ "" ∧
    confirmTokenReceipt [{ mkPending "R" 5 with status := Status.confirmed }] "R" "T"
        (Except.ok "L") =
      { resp := ConfirmResp.alreadyProcessed,
        db := [{ mkPending "R" 5 with status := Status.confirmed }], lencoCalls := 0 } := by
  refine ⟨by decide, by decide, ?_⟩
  exact (C4_amended [{ mkPending "R" 5 with status := Status.confirmed }] "R" "T"
      (Except.ok "L") { mkPending "R" 5 with status := Status.confirmed }
      (by decide) (by decide)).2.1 (by decide) (Or.inr (by decide))

/-! ## C5 — a 404 from confirm-receipt should leave the tx unprocessed -/

/-- C5 exposes a defect: on a 404 the `catch` inside `callConfirmReceipt` does
run `processedTxIds.delete(tx_id)`, but control then returns normally to the
loop in `checkInboundSTXTransfers`, whose next statement is
`processedTxIds.add(tx.tx_id)` — re-inserting the id. So after a cycle in
which confirm-receipt answered 404, the transaction *is* marked processed
(first conjunct), and the next cycle skips it without issuing any
confirm-receipt call (second conjunct: zero calls), contradicting the claim
(and the source's own comment "Remove from processed set so it's retried next
poll"). -/
theorem C5_marked_processed_despite_404 :
    checkInboundSTXTransfers "PLAT" (fun _ => 404)
        [⟨"T1", "success", "token_transfer", "PLAT", "SSWAP_OFFRAMP_X", "S"⟩] [] =
      (["T1"], 1) ∧
    checkInboundSTXTransfers "PLAT" (fun _ => 200)
        [⟨"T1", "success", "token_transfer", "PLAT", "SSWAP_OFFRAMP_X", "S"⟩] ["T1"] =
      (["T1"], 0) := by
  decide

/-! ## C3 — webhook transitions and prior status -/

/-- Counterexample to C3. The claim asserts that `transfer.completed`
transitions a record to `confirmed` only when its prior status is `settling`,
and that a webhook arriving in any other status leaves the record unchanged.
The code checks only `status === "confirmed"` (for the idempotent reply):
here a record still `pending` — no payout was ever initiated — is mutated to
`confirmed` by a `transfer.completed` event. -/
theorem C3_counterexample :
    handleLencoWebhook "" (mkWebhookPayload "transfer.completed" "R") (some "sig")
        [mkPending "R" 5] 7 =
      (WebhookResp.txConfirmed,
        [{ mkPending "R" 5 with status := Status.confirmed, confirmedAt := some 7 }]) := by
  decide

/-- C3 as amended: for an accepted webhook, `transfer.completed` transitions
**any** existing record that is not already `confirmed` (whatever its prior
status — `pending`, `processing`, `settling`, `failed`) to `confirmed` with
`confirmedAt = now`, and is idempotent on a `confirmed` record;
`transfer.failed` / `transfer.reversed` mark **any** existing record (even a
`confirmed` one) `failed` with `requiresManualSettlement`; events other than
these three leave the store unchanged; a reference with no record never
mutates the store. -/
theorem C3_amended (db : DB) (r : String) (now : Nat) (tx : Tx) (ev : String) :
    (findOne db r = some tx → tx.status ≠ Status.confirmed →
      webhookDispatch (mkWebhookPayload "transfer.completed" r) db now =
        (WebhookResp.txConfirmed,
          dbPut db { tx with status := Status.confirmed, confirmedAt := some now })) ∧
    (findOne db r = some tx → tx.status = Status.confirmed →
      webhookDispatch (mkWebhookPayload "transfer.completed" r) db now =
        (WebhookResp.alreadyConfirmed, db)) ∧
    (findOne db r = none →
      webhookDispatch (mkWebhookPayload "transfer.completed" r) db now =
        (WebhookResp.received, db)) ∧
    (findOne db r = some tx → ev = "transfer.failed" ∨ ev = "transfer.reversed" →
      webhookDispatch (mkWebhookPayload ev r) db now =
        (WebhookResp.failureRecorded,
          dbPut db { tx with
                     status := Status.failed,
                     failureReason := some ("Lenco event: " ++ ev),
                     requiresManualSettlement := true })) ∧
    (findOne db r = none → ev = "transfer.failed" ∨ ev = "transfer.reversed" →
      webhookDispatch (mkWebhookPayload ev r) db now =
        (WebhookResp.failureRecorded, db)) ∧
    (ev ≠ "transfer.completed" → ev ≠ "transfer.failed" → ev ≠ "transfer.reversed" →
      webhookDispatch (mkWebhookPayload ev r) db now = (WebhookResp.acknowledged, db)) := by
  refine ⟨?_, ?_, ?_, ?_, ?_, ?_⟩
  · intro h hne
    simp [webhookDispatch, mkWebhookPayload, jGet, jStrVal, h, hne, txSave, validStatus,
      schemaStatusEnum]
  · intro h he
    simp [webhookDispatch, mkWebhookPayload, jGet, jStrVal, h, he]
  · intro h
    simp [webhookDispatch, mkWebhookPayload, jGet, jStrVal, h]
  · intro h hev
    rcases hev with hev | hev <;> subst hev <;>
      simp [webhookDispatch, mkWebhookPayload, jGet, jStrVal, h, txSave, validStatus,
        schemaStatusEnum]
  · intro h hev
    rcases hev with hev | hev <;> subst hev <;>
      simp [webhookDispatch, mkWebhookPayload, jGet, jStrVal, h]
  · intro h1 h2 h3
    simp [webhookDispatch, mkWebhookPayload, jGet, jStrVal, h1, h2, h3]

/-- Witness for `C3_amended`: a `transfer.failed` event marks a `confirmed`
record `failed`. -/
theorem C3_amended_witness :
    findOne [{ mkPending "R" 5 with status := Status.confirmed }] "R" =
      some { mkPending "R" 5 with status := Status.confirmed } ∧
    webhookDispatch (mkWebhookPayload "transfer.failed" "R")
        [{ mkPending "R" 5 with status := Status.confirmed }] 3 =
      (WebhookResp.failureRecorded,
        [{ mkPending "R" 5 with
           status := Status.failed,
           failureReason := some "Lenco event: transfer.failed",
           requiresManualSettlement := true }]) := by
  refine ⟨by decide, ?_⟩
  have h := (C3_amended [{ mkPending "R" 5 with status := Status.confirmed }] "R" 3
      { mkPending "R" 5 with status := Status.confirmed } "transfer.failed").2.2.2.1
      (by decide) (Or.inl rfl)
  simpa [dbPut, mkPending] using h

/-! ## C6 — quote arithmetic -/

/-- C6: for an offramp quote with token amount `a`, NGN rate `r` and flat fee
`f`, every accepted quote carries the integer `ngnAmount = ⌊a·r − f⌋` together
with `ngnAmount > 0`, and whenever `⌊a·r − f⌋ ≤ 0` the quote computation
throws, so initialization is rejected. -/
theorem C6_quote_floor_and_positivity (feeNGN priceNGN tokenAmount : ℚ) :
    (∀ q, calculateOfframpQuote feeNGN priceNGN tokenAmount = Except.ok q →
      q.ngnAmount = ⌊tokenAmount * priceNGN - feeNGN⌋ ∧ 0 < q.ngnAmount) ∧
    (⌊tokenAmount * priceNGN - feeNGN⌋ ≤ 0 →
      calculateOfframpQuote feeNGN priceNGN tokenAmount = Except.error ()) := by
  constructor
  · intro q hq
    by_cases h : (⌊tokenAmount * priceNGN - feeNGN⌋ : Int) ≤ 0
    · simp [calculateOfframpQuote, h] at hq
    · simp [calculateOfframpQuote, h] at hq
      cases hq
      refine ⟨rfl, ?_⟩
      show (0 : Int) < ⌊tokenAmount * priceNGN - feeNGN⌋
      omega
  · intro h
    simp [calculateOfframpQuote, h]

/-- Witness for `C6_quote_floor_and_positivity`: 100 STX at rate ₦1847.35 with
a ₦100 fee quotes exactly ₦184,635. -/
theorem C6_quote_witness :
    calculateOfframpQuote 100 (184735 / 100) 100 =
      Except.ok { ngnAmount := 184635, grossNGN := 184735 } ∧
    (184635 : Int) = ⌊(100 : ℚ) * (184735 / 100) - 100⌋ ∧ (0 : Int) < 184635 := by
  have hq : calculateOfframpQuote 100 (184735 / 100) 100 =
      Except.ok { ngnAmount := 184635, grossNGN := 184735 } := by
    norm_num [calculateOfframpQuote]
  have h := (C6_quote_floor_and_positivity 100 (184735 / 100) 100).1
    { ngnAmount := 184635, grossNGN := 184735 } hq
  exact ⟨hq, h.1, h.2⟩

/-! ## C7 — liquidity guard and public liquidity endpoint -/

/-- C7: the guard accepts exactly when a known balance satisfies
`balance ≥ requiredNGN + minBufferNGN` and always rejects an unknown balance;
the public endpoint answers 503 when the balance is unknown and otherwise
exposes exactly `maxOrderNGN = max(0, ⌊balance − buffer⌋)` (with
`available = maxOrderNGN > 0` and the configured buffer) — in particular two
balances with the same `⌊balance − buffer⌋` produce identical responses, so
the response reveals no more of the raw balance than that floor. -/
theorem C7_liquidity_guard (minBalanceNGN requiredNGN : ℚ) (balance : Option ℚ)
    (b b1 b2 : ℚ) :
    ((checkLiquidity minBalanceNGN balance requiredNGN).ok = true ↔
      ∃ v, balance = some v ∧ requiredNGN + minBalanceNGN ≤ v) ∧
    ((checkLiquidity minBalanceNGN none requiredNGN).ok = false) ∧
    (getLiquidityInfo minBalanceNGN none = none) ∧
    (getLiquidityInfo minBalanceNGN (some b) =
      some { available := decide (0 < max 0 ⌊b - minBalanceNGN⌋),
             maxOrderNGN := max 0 ⌊b - minBalanceNGN⌋,
             minBufferNGN := minBalanceNGN }) ∧
    (⌊b1 - minBalanceNGN⌋ = ⌊b2 - minBalanceNGN⌋ →
      getLiquidityInfo minBalanceNGN (some b1) = getLiquidityInfo minBalanceNGN (some b2)) := by
  refine ⟨?_, by simp [checkLiquidity], by simp [getLiquidityInfo], rfl, ?_⟩
  · cases balance with
    | none => simp [checkLiquidity]
    | some v =>
      simp only [checkLiquidity]
      split_ifs with h
      · simp only [Bool.false_eq_true, false_iff]
        rintro ⟨x, hx, hle⟩
        cases hx
        linarith
      · simp only [true_iff]
        exact ⟨v, rfl, by linarith⟩
  · intro h
    simp [getLiquidityInfo, h]

/-- Witness for `C7_liquidity_guard`: balance ₦20,000, buffer ₦5,000 — an
order of ₦14,000 passes the guard and the endpoint reports
`maxOrderNGN = 15000`. -/
theorem C7_liquidity_witness :
    (checkLiquidity 5000 (some 20000) 14000).ok = true ∧
    getLiquidityInfo 5000 (some 20000) =
      some { available := true, maxOrderNGN := 15000, minBufferNGN := 5000 } := by
  have h := C7_liquidity_guard 5000 14000 (some 20000) 20000 0 0
  refine ⟨h.1.mpr ⟨20000, rfl, by norm_num⟩, ?_⟩
  rw [h.2.2.2.1]
  norm_num

/-! ## C8 — `getCurrentPrices` always yields a usable snapshot -/

theorem jsOr_pos (x : Option ℚ) (d : ℚ) (hx : optNonneg x = true) (hd : 0 < d) :
    0 < jsOr x d := by
  cases x with
  | none => simpa [jsOr] using hd
  | some v =>
    simp only [optNonneg, decide_eq_true_eq] at hx
    by_cases h : v = 0
    · simpa [jsOr, h] using hd
    · simp only [jsOr, if_neg h]
      exact lt_of_le_of_ne hx (Ne.symm h)

theorem tokenResult_pos (usd ngn change : Option ℚ) (u2n : ℚ)
    (husd : optNonneg usd = true) (hngn : optNonneg ngn = true) (hu2n : 0 < u2n)
    (p : TokenPrice) (hp : tokenResult usd ngn change u2n = some p) :
    0 < p.priceNGN := by
  cases usd with
  | none => simp [tokenResult] at hp
  | some u =>
    simp only [optNonneg, decide_eq_true_eq] at husd
    by_cases h : u = 0
    · simp [tokenResult, h] at hp
    · simp only [tokenResult, if_neg h, Option.some.injEq] at hp
      cases hp
      exact jsOr_pos ngn (u * u2n) hngn (mul_pos (lt_of_le_of_ne husd (Ne.symm h)) hu2n)

theorem fetchFromCoinGecko_pos (raw : RawGecko) (h : rawNonneg raw = true)
    (r : FetchResults) (hr : fetchFromCoinGecko raw = Except.ok r) :
    0 < r.stx.priceNGN ∧ 0 < r.usdc.priceNGN := by
  simp only [rawNonneg, Bool.and_eq_true] at h
  obtain ⟨⟨⟨⟨h1, h2⟩, h3⟩, h4⟩, h5⟩ := h
  have hu2n : 0 < jsOr raw.tetherNgn (jsOr raw.usdcNgn EMERGENCY_USD_NGN) :=
    jsOr_pos _ _ h1 (jsOr_pos _ _ h5 (by norm_num [EMERGENCY_USD_NGN]))
  rw [fetchFromCoinGecko] at hr
  cases hstx : tokenResult raw.stxUsd raw.stxNgn raw.stxChange
      (jsOr raw.tetherNgn (jsOr raw.usdcNgn EMERGENCY_USD_NGN)) with
  | none => rw [hstx] at hr; simp at hr
  | some ps =>
    cases husdc : tokenResult raw.usdcUsd raw.usdcNgn raw.usdcChange
        (jsOr raw.tetherNgn (jsOr raw.usdcNgn EMERGENCY_USD_NGN)) with
    | none => rw [hstx, husdc] at hr; simp at hr
    | some pu =>
      rw [hstx, husdc] at hr
      simp only [Except.ok.injEq] at hr
      cases hr
      exact ⟨tokenResult_pos _ _ _ _ h2 h3 hu2n ps hstx,
             tokenResult_pos _ _ _ _ h4 h5 hu2n pu husdc⟩

theorem buildEmergencyResults_pos :
    0 < buildEmergencyResults.stx.priceNGN ∧ 0 < buildEmergencyResults.usdc.priceNGN := by
  norm_num [buildEmergencyResults, EMERGENCY_STX_USD, EMERGENCY_USDC_USD, EMERGENCY_USD_NGN]

theorem cachePos_entries (c : PriceCache) (h : cachePos c = true) :
    (∀ p, c.stx = some p → 0 < p.priceNGN) ∧ (∀ p, c.usdc = some p → 0 < p.priceNGN) := by
  simp only [cachePos, Bool.and_eq_true] at h
  constructor
  · intro p hp
    have := h.1
    rw [hp] at this
    simpa [posPrice] using this
  · intro p hp
    have := h.2
    rw [hp] at this
    simpa [posPrice] using this

theorem refreshErrorPath_pos (st : PriceState) (now : Nat) (is429 : Bool)
    (hc : cachePos st.cache = true) :
    0 < (refreshErrorPath st now is429).1.stx.priceNGN ∧
    0 < (refreshErrorPath st now is429).1.usdc.priceNGN ∧
    cachePos (refreshErrorPath st now is429).2.cache = true := by
  have hent := cachePos_entries st.cache hc
  rw [refreshErrorPath]
  cases hstx : st.cache.stx with
  | none =>
    simp only [hstx]
    refine ⟨buildEmergencyResults_pos.1, buildEmergencyResults_pos.2, ?_⟩
    simp only [cachePos, posPrice]
    rw [Bool.and_eq_true]
    exact ⟨by simpa using buildEmergencyResults_pos.1, by simpa using buildEmergencyResults_pos.2⟩
  | some s =>
    cases husdc : st.cache.usdc with
    | none =>
      simp only [hstx, husdc]
      refine ⟨buildEmergencyResults_pos.1, buildEmergencyResults_pos.2, ?_⟩
      simp only [cachePos, posPrice]
      rw [Bool.and_eq_true]
      exact ⟨by simpa using buildEmergencyResults_pos.1,
             by simpa using buildEmergencyResults_pos.2⟩
    | some u =>
      cases hstale : hasUsableStaleCache st.cache now with
      | false =>
        simp only [hstx, husdc, hstale]
        refine ⟨buildEmergencyResults_pos.1, buildEmergencyResults_pos.2, ?_⟩
        simp only [cachePos, posPrice]
        rw [Bool.and_eq_true]
        exact ⟨by simpa using buildEmergencyResults_pos.1,
               by simpa using buildEmergencyResults_pos.2⟩
      | true =>
        simp only [hstx, husdc, hstale]
        exact ⟨hent.1 s hstx, hent.2 u husdc, hc⟩

theorem refreshPrices_pos (st : PriceState) (now : Nat) (upstream : Option RawGecko)
    (is429 : Bool) (hc : cachePos st.cache = true)
    (hr : ∀ raw, upstream = some raw → rawNonneg raw = true) :
    0 < (refreshPrices st now upstream is429).1.stx.priceNGN ∧
    0 < (refreshPrices st now upstream is429).1.usdc.priceNGN ∧
    cachePos (refreshPrices st now upstream is429).2.cache = true := by
  have hent := cachePos_entries st.cache hc
  rw [refreshPrices.eq_def]
  by_cases hb : now < st.backoffUntil
  · simp only [if_pos hb]
    cases hstx : st.cache.stx with
    | none =>
      simp only [hstx]
      exact ⟨buildEmergencyResults_pos.1, buildEmergencyResults_pos.2, hc⟩
    | some s =>
      cases husdc : st.cache.usdc with
      | none =>
        simp only [hstx, husdc]
        exact ⟨buildEmergencyResults_pos.1, buildEmergencyResults_pos.2, hc⟩
      | some u =>
        cases hstale : hasUsableStaleCache st.cache now with
        | false =>
          simp only [hstx, husdc, hstale]
          exact ⟨buildEmergencyResults_pos.1, buildEmergencyResults_pos.2, hc⟩
        | true =>
          simp only [hstx, husdc, hstale]
          exact ⟨hent.1 s hstx, hent.2 u husdc, hc⟩
  · simp only [if_neg hb]
    cases hup : upstream with
    | none => exact refreshErrorPath_pos st now is429 hc
    | some raw =>
      dsimp only
      cases hfet : fetchFromCoinGecko raw with
      | error e =>
        dsimp only
        exact refreshErrorPath_pos st now false hc
      | ok results =>
        dsimp only
        have hpos := fetchFromCoinGecko_pos raw (hr raw hup) results hfet
        refine ⟨hpos.1, hpos.2, ?_⟩
        simp only [cachePos, posPrice]
        rw [Bool.and_eq_true]
        exact ⟨by simpa using hpos.1, by simpa using hpos.2⟩

/-- C8: in **every** service state whose cached entries are well-formed
(positive NGN prices — true of the initial empty cache and preserved by every
refresh, `refreshPrices_pos`), and for every upstream outcome — total
unavailability (`none`), a 429 driving backoff, an armed backoff window, or a
2xx body carrying nonnegative prices — `getCurrentPrices` returns a snapshot
(it is a total function: no error propagates) whose `STX` and `USDC` entries
both have strictly positive `priceNGN`, and the post-state cache is again
well-formed. The fallback order is stale cache, then the emergency constants. -/
theorem C8_getCurrentPrices_total_and_positive (st : PriceState) (now : Nat)
    (upstream : Option RawGecko) (is429 : Bool) (hc : cachePos st.cache = true)
    (hr : ∀ raw, upstream = some raw → rawNonneg raw = true) :
    0 < (getCurrentPrices st now upstream is429).1.stx.priceNGN ∧
    0 < (getCurrentPrices st now upstream is429).1.usdc.priceNGN ∧
    cachePos (getCurrentPrices st now upstream is429).2.cache = true := by
  have hent := cachePos_entries st.cache hc
  have hre := refreshPrices_pos st now upstream is429 hc hr
  rw [getCurrentPrices]
  cases hstx : st.cache.stx with
  | none =>
    simp only [hstx]
    exact hre
  | some s =>
    cases husdc : st.cache.usdc with
    | none =>
      simp only [hstx, husdc]
      exact hre
    | some u =>
      cases hfresh : hasFreshCache st.cache now with
      | false =>
        simp only [hstx, husdc, hfresh]
        exact hre
      | true =>
        simp only [hstx, husdc, hfresh]
        exact ⟨hent.1 s hstx, hent.2 u husdc, hc⟩

/-- The initial module state of `priceService.js`: empty cache, no backoff. -/
def initPriceState : PriceState :=
  { cache := { stx := none, usdc := none, lastFetched := none },
    backoffUntil := 0, consecutiveFailures := 0 }

/-- Witness for `C8_getCurrentPrices_total_and_positive`: a cold start (empty
cache) during total upstream unavailability still yields positive prices (the
emergency constants). -/
theorem C8_witness :
    cachePos initPriceState.cache = true ∧
    0 < ((getCurrentPrices initPriceState 1000 none false).1).stx.priceNGN ∧
    0 < ((getCurrentPrices initPriceState 1000 none false).1).usdc.priceNGN := by
  have h := C8_getCurrentPrices_total_and_positive initPriceState 1000 none false
    (by rfl) (fun raw hraw => by cases hraw)
  exact ⟨by rfl, h.1, h.2.1⟩

/-! ## C9 — webhook signature verification -/

/-- Counterexample to C9. The claim asserts (i) the HMAC is computed over the
raw bytes of the request body as received, not over a re-serialisation of the
parsed payload, and (ii) `handleLencoWebhook` rejects with 401 exactly the
requests whose signature does not match. Against the code: (i) Express parses
the body and `verifyLencoSignature` MACs `JSON.stringify(req.body)`; for the
raw body `'{"a": 1}'` (with a space) the bytes MACed —
`JSON.stringify(JSON.parse(raw))` = `'{"a":1}'` — differ from the raw bytes
received; (ii) with the secret unconfigured (`LENCO_WEBHOOK_SECRET` defaults
to `""`), a request whose signature matches nothing is accepted and fully
processed rather than rejected with 401. -/
theorem C9_counterexample :
    jsonParse "\x7b\"a\": 1\x7d" = some (JVal.jobj [("a", JVal.jnum 1)]) ∧
    jsonStringify (JVal.jobj [("a", JVal.jnum 1)]) ≠ "\x7b\"a\": 1\x7d" ∧
    verifyLencoSignature "" (JVal.jobj [("a", JVal.jnum 1)]) "not-the-hmac" = true ∧
    handleLencoWebhook "" (mkWebhookPayload "transfer.completed" "R") (some "not-the-hmac")
        [mkPending "R" 5] 7 =
      (WebhookResp.txConfirmed,
        [{ mkPending "R" 5 with status := Status.confirmed, confirmedAt := some 7 }]) := by
  exact ⟨by rfl, by decide, by rfl, by decide⟩

/-- C9 as amended: when the secret **is** configured, `verifyLencoSignature`
accepts exactly the signatures equal to the HMAC-SHA256 (hex) of
`JSON.stringify(payload)` — the re-serialised parsed body, compared with plain
string equality `===`, not a constant-time comparison of the raw bytes — and
`handleLencoWebhook` answers 401 exactly when the signature header is absent,
empty, or differs from that digest, dispatching the event otherwise; when the
secret is not configured the check is bypassed (see C10). -/
theorem C9_amended (secret : String) (payload : JVal) (sig : String) (db : DB) (now : Nat)
    (hs : secret ≠ "") :
    (verifyLencoSignature secret payload sig = true ↔
      hmacSHA256hex secret (jsonStringify payload) = sig) ∧
    (handleLencoWebhook secret payload none db now = (WebhookResp.missingSignature, db)) ∧
    (sig ≠ "" → hmacSHA256hex secret (jsonStringify payload) ≠ sig →
      handleLencoWebhook secret payload (some sig) db now =
        (WebhookResp.invalidSignature, db)) ∧
    (sig ≠ "" → hmacSHA256hex secret (jsonStringify payload) = sig →
      handleLencoWebhook secret payload (some sig) db now = webhookDispatch payload db now) := by
  have hv : verifyLencoSignature secret payload sig =
      (hmacSHA256hex secret (jsonStringify payload) == sig) := by
    simp [verifyLencoSignature, hs]
  refine ⟨?_, rfl, ?_, ?_⟩
  · rw [hv]
    exact beq_iff_eq
  · intro hsig hne
    simp [handleLencoWebhook, hsig, hv, hne]
  · intro hsig heq
    simp [handleLencoWebhook, hsig, hv, heq]

/-- Witness for `C9_amended` at a concrete configured secret. -/
theorem C9_amended_witness :
    ("whsec" : String) ≠ "" ∧
    handleLencoWebhook "whsec" (mkWebhookPayload "transfer.completed" "R") none
        [mkPending "R" 5] 7 =
      (WebhookResp.missingSignature, [mkPending "R" 5]) := by
  exact ⟨by decide,
    (C9_amended "whsec" (mkWebhookPayload "transfer.completed" "R") "s"
      [mkPending "R" 5] 7 (by decide)).2.1⟩

/-! ## C10 — unconfigured secret bypasses the signature check -/

/-- C10: with `LENCO_WEBHOOK_SECRET` unset (the default `""`),
`verifyLencoSignature` returns `true` for every payload and every signature
value, so `handleLencoWebhook` accepts and fully processes any request whose
`x-lenco-signature` header is non-empty: its outcome is exactly the event
dispatch, never a 401 (the check is silently bypassed). -/
theorem C10_unconfigured_secret_bypass (payload : JVal) (sig : String) (db : DB) (now : Nat)
    (hsig : sig ≠ "") :
    verifyLencoSignature "" payload sig = true ∧
    handleLencoWebhook "" payload (some sig) db now = webhookDispatch payload db now := by
  refine ⟨rfl, ?_⟩
  simp [handleLencoWebhook, verifyLencoSignature, hsig]

/-- Witness for `C10_unconfigured_secret_bypass`: a bogus signature is
accepted and the `transfer.completed` event is processed in full. -/
theorem C10_witness :
    ("bogus" : String) ≠ "" ∧
    verifyLencoSignature "" (mkWebhookPayload "transfer.completed" "R") "bogus" = true ∧
    handleLencoWebhook "" (mkWebhookPayload "transfer.completed" "R") (some "bogus")
        [mkPending "R" 5] 7 =
      webhookDispatch (mkWebhookPayload "transfer.completed" "R") [mkPending "R" 5] 7 := by
  have h := C10_unconfigured_secret_bypass (mkWebhookPayload "transfer.completed" "R") "bogus"
    [mkPending "R" 5] 7 (by decide)
  exact ⟨by decide, h.1, h.2⟩
